import Mathlib

/-!
Shallow embedding of `usg` (src/src/main.rs), a per-process resource monitor:
CPU accounting (`total_cpu_time`, `period`, `cpu_usage`), the flow correlator
(`build_packet_filter`), and the capture thread / sampling loop of `main`.
Machine `u64` arithmetic is modelled over `Nat` with explicit `% 2 ^ 64` where
wrapping matters; `f64` results that the claims inspect (division by zero)
are modelled by a symbolic IEEE-style value type `F64` over `ℚ`.
-/

namespace Usg

/-! ### CPU accounting (main.rs lines 14-30) -/

/-- Kernel per-category CPU tick record, as procfs `CpuTime` exposes it:
`user`, `nice`, `system`, `idle` are always present (`u64`); the remaining
categories are `Option<u64>` in procfs and the code reads them with
`unwrap_or(0)`. -/
structure CpuTime where
  user : Nat
  nice : Nat
  system : Nat
  idle : Nat
  iowait : Option Nat
  irq : Option Nat
  softirq : Option Nat
  steal : Option Nat
  guest : Option Nat
  guest_nice : Option Nat
deriving DecidableEq

/-- main.rs lines 14-22: htop-style total of all CPU ticks.  The two
subtractions are unchecked `u64` subtractions in the source; they are used
under the kernel invariant `guest ≤ user`, `guest_nice ≤ nice` (Nat
subtraction agrees with `u64` subtraction exactly on that domain). -/
def total_cpu_time (cpu : CpuTime) : Nat :=
  let user := cpu.user - (cpu.guest.getD 0)
  let nice := cpu.nice - (cpu.guest_nice.getD 0)
  let total_idle := cpu.idle + cpu.iowait.getD 0
  let total_system := cpu.system + cpu.irq.getD 0 + cpu.softirq.getD 0
  let total_virt := cpu.guest.getD 0 + cpu.guest_nice.getD 0
  user + nice + total_system + total_idle + total_virt + cpu.steal.getD 0

/-- main.rs lines 24-26: `ticks.saturating_sub(prev_ticks) as f64 / num_cores
as f64`.  `Nat` subtraction is saturating subtraction; the exact real
division is modelled in `ℚ`. -/
def period (ticks prev_ticks : Nat) (num_cores : Nat) : ℚ :=
  ((ticks - prev_ticks : Nat) : ℚ) / (num_cores : ℚ)

/-- `2 ^ 64`, the modulus of `u64` arithmetic. -/
def u64Mod : Nat := 2 ^ 64

/-- main.rs line 29, release semantics: the process tick delta
`(utime + stime) - (prev_utime + prev_stime)` is an unchecked `u64`
subtraction, which wraps modulo `2 ^ 64` in release builds.  Arguments are
the two already-summed tick totals (each `< 2 ^ 64`). -/
def cpuDeltaWrap (cur prev : Nat) : Nat :=
  (cur + u64Mod - prev) % u64Mod

/-- main.rs line 29, debug semantics: the same unchecked subtraction panics
on underflow in debug builds; the panic is modelled as `none`. -/
def cpuDeltaChecked (cur prev : Nat) : Option Nat :=
  if prev ≤ cur then some (cur - prev) else none

/-- Symbolic IEEE-754 `f64` value as far as the embedded code can observe
it: a finite rational, an infinity, or NaN. -/
inductive F64 where
  | finite (q : ℚ)
  | posInf
  | negInf
  | nan
deriving DecidableEq

/-- IEEE-754 division on `F64`: finite / 0 is a signed infinity (NaN for
0 / 0); NaN propagates. -/
def F64.div : F64 → F64 → F64
  | F64.nan, _ => F64.nan
  | _, F64.nan => F64.nan
  | F64.finite a, F64.finite b =>
    if b = 0 then
      if a = 0 then F64.nan else if 0 < a then F64.posInf else F64.negInf
    else F64.finite (a / b)
  | F64.finite _, F64.posInf => F64.finite 0
  | F64.finite _, F64.negInf => F64.finite 0
  | F64.posInf, F64.finite b => if b < 0 then F64.negInf else F64.posInf
  | F64.negInf, F64.finite b => if b < 0 then F64.posInf else F64.negInf
  | F64.posInf, F64.posInf => F64.nan
  | F64.posInf, F64.negInf => F64.nan
  | F64.negInf, F64.posInf => F64.nan
  | F64.negInf, F64.negInf => F64.nan

/-- IEEE-754 multiplication on `F64`: infinity times zero is NaN; NaN
propagates. -/
def F64.mul : F64 → F64 → F64
  | F64.nan, _ => F64.nan
  | _, F64.nan => F64.nan
  | F64.finite a, F64.finite b => F64.finite (a * b)
  | F64.posInf, F64.finite b =>
    if b = 0 then F64.nan else if 0 < b then F64.posInf else F64.negInf
  | F64.finite a, F64.posInf =>
    if a = 0 then F64.nan else if 0 < a then F64.posInf else F64.negInf
  | F64.negInf, F64.finite b =>
    if b = 0 then F64.nan else if 0 < b then F64.negInf else F64.posInf
  | F64.finite a, F64.negInf =>
    if a = 0 then F64.nan else if 0 < a then F64.negInf else F64.posInf
  | F64.posInf, F64.posInf => F64.posInf
  | F64.posInf, F64.negInf => F64.negInf
  | F64.negInf, F64.posInf => F64.negInf
  | F64.negInf, F64.negInf => F64.posInf

/-- main.rs lines 28-30: `((stat.utime + stat.stime) - (prev_stat.utime +
prev_stat.stime)) as f64 / period * 100.0`, with the release (wrapping)
semantics of the unchecked subtraction and the `f64` operations symbolic. -/
def cpu_usage (utime stime prev_utime prev_stime : Nat) (p : F64) : F64 :=
  F64.mul
    (F64.div (F64.finite ((cpuDeltaWrap (utime + stime) (prev_utime + prev_stime) : Nat) : ℚ)) p)
    (F64.finite 100)

/-! ### Flow correlator (main.rs lines 40-68) -/

/-- procfs `FDTarget`: what a file descriptor points at.  Only the
`Socket(inode)` variant matters to the code; all other variants (paths,
pipes, anonymous inodes, ...) are collapsed into `other`. -/
inductive FDTarget where
  | socket (inode : Nat)
  | other (id : Nat)
deriving DecidableEq

/-- procfs `FDInfo`, restricted to the one field the code touches. -/
structure FDInfo where
  target : FDTarget
deriving DecidableEq

/-- A socket address as the code observes it: the `Display` rendering of
its IP and its port number. -/
structure SockAddr where
  ip : String
  port : Nat
deriving DecidableEq

/-- procfs `TcpNetEntry`, restricted to the fields the code touches. -/
structure TcpNetEntry where
  inode : Nat
  local_address : SockAddr
  remote_address : SockAddr
deriving DecidableEq

/-- main.rs lines 46-52: reduce the fd list to the inodes of its socket
descriptors.  The source collects into a `HashSet<u64>` used only through
`contains`; a list queried with `contains` has identical membership
semantics, so the set is embedded as the (possibly duplicated) list of
extracted inodes. -/
def socketInodes (fds : List FDInfo) : List Nat :=
  fds.filterMap (fun fd =>
    match fd.target with
    | FDTarget.socket inode => some inode
    | FDTarget.other _ => none)

/-- main.rs lines 58-64: the predicate clause emitted for one TCP entry. -/
def clauseOf (e : TcpNetEntry) : String :=
  "(host " ++ e.local_address.ip ++ " and host " ++ e.remote_address.ip ++
    " and port " ++ toString e.local_address.port ++ " and port " ++
    toString e.remote_address.port ++ ")"

/-- main.rs lines 55-66: the clause list before joining — TCP entries whose
inode is in the socket-inode set, each rendered by `clauseOf`. -/
def filterClauses (fds : List FDInfo) (tcp : List TcpNetEntry) : List String :=
  (tcp.filter (fun e => (socketInodes fds).contains e.inode)).map clauseOf

/-- main.rs lines 40-68: the full filter string, clauses joined with
`" or "` (`Vec::join`, which is `String.intercalate`). -/
def build_packet_filter (fds : List FDInfo) (tcp : List TcpNetEntry) : String :=
  String.intercalate " or " (filterClauses fds tcp)

/-! ### Capture thread and sampling loop (main.rs lines 94-142) -/

/-- One observable event of a capture-thread iteration: the blocking read
either fails (`readErr`, ending the `while let Ok` loop) or yields a packet
of the given wire length, after which `try_recv` yields at most one pending
filter update; the `Bool` is whether `capture.filter(..)` for that update
succeeds (its failure hits `.unwrap()`). -/
inductive CapEvent where
  | readErr
  | pkt (len : Nat) (upd : Option (String × Bool))
deriving DecidableEq

/-- State of the capture thread: whether it is still running, the shared
byte counter, and the currently installed filter. -/
structure CaptureState where
  alive : Bool
  counter : Nat
  filter : String
deriving DecidableEq

/-- main.rs lines 94-105, one loop iteration.  A dead thread does nothing.
A read error ends the `while let Ok` loop (the thread exits).  A packet
adds its wire length `packet.header.len` to the counter under the lock;
then, if `try_recv` yielded a filter whose install fails, `.unwrap()`
panics and the thread dies (the lock was already dropped at line 98). -/
def captureStep (s : CaptureState) (e : CapEvent) : CaptureState :=
  if s.alive then
    match e with
    | CapEvent.readErr => { s with alive := false }
    | CapEvent.pkt len upd =>
      let s1 := { s with counter := s.counter + len }
      match upd with
      | none => s1
      | some (f, true) => { s1 with filter := f }
      | some (_, false) => { s1 with alive := false }
  else s

/-- The capture thread run over a sequence of events. -/
def captureRun (s : CaptureState) (es : List CapEvent) : CaptureState :=
  es.foldl captureStep s

/-- main.rs lines 109-142, restricted to the network column and the filter
resend: each cycle the capture thread first processes its events
(concurrently with the sleep); the loop then locks the counter, emits
`net_bytes - prev_net_bytes` (delay_s = 1, line 133), stores the new
baseline, and finally runs `sender.send(build_packet_filter(..))?`
(line 141).  The `receiver` was moved into the capture thread's closure
(line 100), so once that thread is gone — loop ended by a read error, or
the unwrap at line 102 — the receiver is dropped, the send returns
`Err(SendError)` and the `?` operator propagates it out of `main`, ending
the loop after the current cycle's sample.  Returns the emitted samples
and `true` when no send error occurred (the loop is still running). -/
def runCycles : CaptureState → Nat → List (List CapEvent) → List Nat × Bool
  | _, _, [] => ([], true)
  | s, prevNet, evs :: rest =>
    let s2 := captureRun s evs
    if s2.alive then
      ((s2.counter - prevNet) :: (runCycles s2 s2.counter rest).1,
        (runCycles s2 s2.counter rest).2)
    else
      ([s2.counter - prevNet], false)

/-! ### Concrete fixtures (the instances named by the spec) -/

/-- The spec's example flow: inode 5, local 127.0.0.1:33791, remote
127.0.0.1:60914. -/
def entryInode5 : TcpNetEntry := ⟨5, ⟨"127.0.0.1", 33791⟩, ⟨"127.0.0.1", 60914⟩⟩

/-- The spec's example non-matching flow with inode 9 (ports chosen
distinct from the inode-5 ports). -/
def entryInode9 : TcpNetEntry := ⟨9, ⟨"10.0.0.2", 1111⟩, ⟨"10.0.0.3", 2222⟩⟩

/-- The spec's example descriptor set: a single socket fd with inode 5. -/
def fdSocket5 : List FDInfo := [⟨FDTarget.socket 5⟩]

/-! ### Helper lemmas -/

/-- Mapping cannot decrease the number of occurrences: each occurrence of
`a` in `l` contributes one occurrence of `f a` to `l.map f`. -/
theorem count_le_count_map {α β : Type} [DecidableEq α] [DecidableEq β]
    (f : α → β) (l : List α) (a : α) :
    l.count a ≤ (l.map f).count (f a) := by
  induction l with
  | nil => simp
  | cons b t ih =>
    simp only [List.map_cons, List.count_cons]
    by_cases hb : b = a
    · subst hb
      simp only [beq_self_eq_true, if_true]
      omega
    · by_cases hf : f b = f a
      · simp only [hb, hf, beq_iff_eq, if_false, if_true]
        omega
      · simp only [hb, hf, beq_iff_eq, if_false]
        omega

/-- A `contains` check that returns `false` means non-membership. -/
theorem not_mem_of_contains_eq_false {α : Type} [BEq α] [LawfulBEq α]
    {l : List α} {a : α} (h : l.contains a = false) : a ∉ l := by
  intro hm
  rw [← List.elem_iff] at hm
  have h2 : List.elem a l = false := h
  rw [h2] at hm
  exact Bool.noConfusion hm

/-- A dead capture thread performs no further step. -/
theorem captureStep_dead {s : CaptureState} (e : CapEvent) (h : s.alive = false) :
    captureStep s e = s := by
  simp [captureStep, h]

/-- A dead capture thread is unaffected by any further event sequence. -/
theorem captureRun_dead {s : CaptureState} (es : List CapEvent) (h : s.alive = false) :
    captureRun s es = s := by
  induction es with
  | nil => rfl
  | cons e t ih =>
    show captureRun (captureStep s e) t = s
    rw [captureStep_dead e h, ih]

/-! ### Claims -/

/-- C1: `build_packet_filter` emits exactly one clause
`(host lip and host rip and port lp and port rp)` per TCP entry whose inode
is among the socket inodes extracted from the descriptors, joined with
" or ", and no clause for any other entry; on the spec's instance
(descriptor inode 5; entries with inodes 5 and 9) the result is exactly the
inode-5 clause with ports 33791 and 60914 and nothing from the inode-9
entry; two entries sharing an in-set inode both contribute their clause. -/
theorem c1_one_clause_per_matching_entry :
    (∀ fds tcp, build_packet_filter fds tcp
        = String.intercalate " or "
            ((tcp.filter (fun e => (socketInodes fds).contains e.inode)).map clauseOf))
    ∧ (∀ fds tcp, (filterClauses fds tcp).length
        = (tcp.filter (fun e => (socketInodes fds).contains e.inode)).length)
    ∧ (∀ fds tcp (e : TcpNetEntry), (socketInodes fds).contains e.inode = true →
        tcp.count e ≤ (filterClauses fds tcp).count (clauseOf e))
    ∧ (∀ fds tcp (c : String), c ∈ filterClauses fds tcp →
        ∃ e, e ∈ tcp ∧ (socketInodes fds).contains e.inode = true ∧ c = clauseOf e)
    ∧ build_packet_filter fdSocket5 [entryInode5, entryInode9]
        = "(host 127.0.0.1 and host 127.0.0.1 and port 33791 and port 60914)"
    ∧ filterClauses fdSocket5 [entryInode5, entryInode9] = [clauseOf entryInode5] := by
  refine ⟨fun fds tcp => rfl, fun fds tcp => by simp [filterClauses], ?_, ?_,
    by decide, by decide⟩
  · intro fds tcp e he
    calc tcp.count e
        = (tcp.filter (fun x => (socketInodes fds).contains x.inode)).count e :=
          (List.count_filter (p := fun x => (socketInodes fds).contains x.inode)
            (a := e) (l := tcp) he).symm
      _ ≤ _ := count_le_count_map clauseOf _ e
  · intro fds tcp c hc
    simp only [filterClauses, List.mem_map, List.mem_filter] at hc
    obtain ⟨e, ⟨hmem, hin⟩, heq⟩ := hc
    exact ⟨e, hmem, hin, heq.symm⟩

/-- Witness for C1: two entries duplicating inode 5 both yield their clause
(count at least the entry count), at the spec's concrete instance. -/
theorem c1_one_clause_per_matching_entry_witness :
    [entryInode5, entryInode5, entryInode9].count entryInode5
      ≤ (filterClauses fdSocket5 [entryInode5, entryInode5, entryInode9]).count
          (clauseOf entryInode5) :=
  c1_one_clause_per_matching_entry.2.2.1 fdSocket5
    [entryInode5, entryInode5, entryInode9] entryInode5 (by decide)

/-- C2 (code_bug evidence): with `period = 0` — reachable, since an
unchanged system tick total gives `period 100 100 4 = 0` — `cpu_usage`
performs the division anyway, producing +Inf for a positive process tick
delta and NaN for a zero delta, instead of a finite fallback. -/
theorem c2_cpu_usage_unguarded_zero_period :
    period 100 100 4 = 0
    ∧ cpu_usage 1 0 0 0 (F64.finite (period 100 100 4)) = F64.posInf
    ∧ cpu_usage 0 0 0 0 (F64.finite (period 100 100 4)) = F64.nan := by
  refine ⟨by simp [period], ?_, ?_⟩ <;>
    simp [cpu_usage, period, cpuDeltaWrap, u64Mod, F64.div, F64.mul]

/-- C3 counterexample: with no surviving flow the code returns the empty
string — the join of zero clauses — not an explicit always-false
predicate. -/
theorem c3_counterexample_empty_string :
    build_packet_filter [] [entryInode5, entryInode9] = "" := by decide

/-- C3 amended: whenever no TCP entry's inode is in the socket-inode set
(in particular for an empty descriptor list), `build_packet_filter` returns
the empty string, and the empty join is total (never crashes). -/
theorem c3_no_survivors_empty_string (fds : List FDInfo) (tcp : List TcpNetEntry)
    (h : ∀ e ∈ tcp, (socketInodes fds).contains e.inode = false) :
    build_packet_filter fds tcp = "" := by
  have hf : tcp.filter (fun e => (socketInodes fds).contains e.inode) = [] := by
    rw [List.filter_eq_nil_iff]
    intro e he
    simp only [h e he]
    exact Bool.false_ne_true
  unfold build_packet_filter filterClauses
  rw [hf]
  rfl

/-- Witness for C3 amended: a descriptor set with inode 5 and a table with
only an inode-9 entry yields the empty string. -/
theorem c3_no_survivors_empty_string_witness :
    build_packet_filter fdSocket5 [entryInode9] = "" :=
  c3_no_survivors_empty_string fdSocket5 [entryInode9] (by decide)

/-- C4 counterexample: starting alive with filter "f0", a packet of length
10 followed by a failed filter install kills the thread, and a subsequent
packet of length 5 is not counted — the thread does not continue its
packet-read loop as the claim states. -/
theorem c4_counterexample_thread_dies :
    captureRun ⟨true, 0, "f0"⟩
      [CapEvent.pkt 10 (some ("bad", false)), CapEvent.pkt 5 none]
      = ⟨false, 10, "f0"⟩ := by decide

/-- C4 amended: a failed filter compile or install for an update hits
`.unwrap()` and terminates the capture thread: after the failing update the
thread is dead, its counter retains the current packet's length, and no
further event has any effect. -/
theorem c4_failed_install_stops_thread (s : CaptureState) (len : Nat) (f : String)
    (es : List CapEvent) (h : s.alive = true) :
    (captureStep s (CapEvent.pkt len (some (f, false)))).alive = false
    ∧ (captureStep s (CapEvent.pkt len (some (f, false)))).counter = s.counter + len
    ∧ captureRun (captureStep s (CapEvent.pkt len (some (f, false)))) es
        = captureStep s (CapEvent.pkt len (some (f, false))) := by
  have h1 : captureStep s (CapEvent.pkt len (some (f, false)))
      = { s with counter := s.counter + len, alive := false } := by
    simp [captureStep, h]
  refine ⟨by rw [h1], by rw [h1], captureRun_dead es (by rw [h1])⟩

/-- Witness for C4 amended, at a concrete alive state and a concrete
pending event list. -/
theorem c4_failed_install_stops_thread_witness :
    (captureStep ⟨true, 0, "f0"⟩ (CapEvent.pkt 10 (some ("bad", false)))).alive = false
    ∧ (captureStep ⟨true, 0, "f0"⟩ (CapEvent.pkt 10 (some ("bad", false)))).counter = 0 + 10
    ∧ captureRun (captureStep ⟨true, 0, "f0"⟩ (CapEvent.pkt 10 (some ("bad", false))))
        [CapEvent.pkt 5 none]
        = captureStep ⟨true, 0, "f0"⟩ (CapEvent.pkt 10 (some ("bad", false))) :=
  c4_failed_install_stops_thread ⟨true, 0, "f0"⟩ 10 "bad" [CapEvent.pkt 5 none] rfl

/-- C5 counterexample: a packet of length 3 and then a read error kill the
capture thread during the first of three scheduled cycles; the loop emits
that cycle's sample (3 bytes) and then terminates on the failed
`sender.send(..)?` — the two subsequent cycles never run, refuting "every
subsequent cycle still completes and emits its sample". -/
theorem c5_counterexample_loop_terminates :
    runCycles ⟨true, 5, "f"⟩ 5 [[CapEvent.pkt 3 none, CapEvent.readErr], [], []]
      = ([3], false) := by decide

/-- C5 amended: when the capture thread dies during a cycle (read error
ending the `while let Ok` loop, which drops the receiver), the sampling
loop still completes that cycle and emits its sample, but its
`sender.send(..)?` then fails and the `?` operator terminates the loop: no
subsequent cycle runs.  Conversely, as long as no send error has occurred,
every cycle emits exactly one sample. -/
theorem c5_send_failure_ends_loop :
    (∀ s prevNet evs rest, (captureRun s evs).alive = false →
        runCycles s prevNet (evs :: rest)
          = ([(captureRun s evs).counter - prevNet], false))
    ∧ (∀ s prevNet cycles, (runCycles s prevNet cycles).2 = true →
        ((runCycles s prevNet cycles).1).length = cycles.length) := by
  constructor
  · intro s prevNet evs rest h
    simp [runCycles, h]
  · intro s prevNet cycles
    induction cycles generalizing s prevNet with
    | nil =>
      intro _
      rfl
    | cons evs rest ih =>
      intro h
      cases hb : (captureRun s evs).alive with
      | false =>
        rw [show runCycles s prevNet (evs :: rest)
            = ([(captureRun s evs).counter - prevNet], false) by simp [runCycles, hb]] at h
        exact Bool.noConfusion h
      | true =>
        simp only [runCycles, hb, if_true] at h ⊢
        simp [ih _ _ h]

/-- Witness for C5 amended: the thread dies in the first of two scheduled
cycles; exactly that cycle's sample is emitted and the loop ends. -/
theorem c5_send_failure_ends_loop_witness :
    runCycles ⟨true, 5, "f"⟩ 5 [[CapEvent.pkt 3 none, CapEvent.readErr], []]
      = ([(captureRun ⟨true, 5, "f"⟩ [CapEvent.pkt 3 none, CapEvent.readErr]).counter - 5],
          false) :=
  c5_send_failure_ends_loop.1 ⟨true, 5, "f"⟩ 5
    [CapEvent.pkt 3 none, CapEvent.readErr] [[]] (by decide)

/-- C6: for all tick counts and `num_cores ≥ 1`, `period` computes
`max(0, current − previous) / num_cores` (the saturating subtraction is
exactly `max 0` of the signed difference) and the result is nonnegative,
also when `current < previous`. -/
theorem c6_period_max_zero_nonneg (t p c : Nat) (h : 1 ≤ c) :
    period t p c = ((max 0 ((t : ℤ) - (p : ℤ)) : ℤ) : ℚ) / (c : ℚ)
    ∧ 0 ≤ period t p c := by
  have hz : ((t - p : Nat) : ℤ) = max 0 ((t : ℤ) - (p : ℤ)) := by omega
  constructor
  · unfold period
    rw [show ((t - p : Nat) : ℚ) = (((t - p : Nat) : ℤ) : ℚ) by push_cast; ring, hz]
  · unfold period
    apply div_nonneg <;> positivity

/-- Witness for C6 with `current < previous` (5 < 9) and 2 cores. -/
theorem c6_period_max_zero_nonneg_witness :
    period 5 9 2 = ((max 0 ((5 : ℤ) - (9 : ℤ)) : ℤ) : ℚ) / ((2 : Nat) : ℚ)
    ∧ 0 ≤ period 5 9 2 :=
  c6_period_max_zero_nonneg 5 9 2 (by norm_num)

/-- C7: under the kernel invariants `guest ≤ user` and
`guest_nice ≤ nice`, `total_cpu_time` equals the sum of the ten categories
with guest subtracted out of user and guest_nice out of nice — which is
exactly the eight raw categories summed once, so guest time is counted
exactly once. -/
theorem c7_total_cpu_time_guest_once (cpu : CpuTime)
    (hg : cpu.guest.getD 0 ≤ cpu.user) (hgn : cpu.guest_nice.getD 0 ≤ cpu.nice) :
    total_cpu_time cpu
      = (cpu.user - cpu.guest.getD 0) + (cpu.nice - cpu.guest_nice.getD 0)
        + cpu.system + cpu.idle + cpu.iowait.getD 0 + cpu.irq.getD 0
        + cpu.softirq.getD 0 + cpu.steal.getD 0 + cpu.guest.getD 0
        + cpu.guest_nice.getD 0
    ∧ total_cpu_time cpu
      = cpu.user + cpu.nice + cpu.system + cpu.idle + cpu.iowait.getD 0
        + cpu.irq.getD 0 + cpu.softirq.getD 0 + cpu.steal.getD 0 := by
  simp only [total_cpu_time]
  omega

/-- Witness for C7 at a concrete tick record with nonzero guest times. -/
theorem c7_total_cpu_time_guest_once_witness :
    total_cpu_time ⟨10, 5, 4, 6, some 1, some 2, some 3, some 4, some 3, some 2⟩
      = (10 - (some 3).getD 0) + (5 - (some 2).getD 0) + 4 + 6 + (some 1).getD 0
        + (some 2).getD 0 + (some 3).getD 0 + (some 4).getD 0 + (some 3).getD 0
        + (some 2).getD 0
    ∧ total_cpu_time ⟨10, 5, 4, 6, some 1, some 2, some 3, some 4, some 3, some 2⟩
      = 10 + 5 + 4 + 6 + (some 1).getD 0 + (some 2).getD 0 + (some 3).getD 0
        + (some 4).getD 0 :=
  c7_total_cpu_time_guest_once ⟨10, 5, 4, 6, some 1, some 2, some 3, some 4, some 3, some 2⟩
    (by decide) (by decide)

/-- C8: the filter depends on the descriptor list only through socket-inode
set membership: two descriptor lists whose extracted inode lists agree
under `contains` (duplicates and order irrelevant) yield the same filter
for every flow list. -/
theorem c8_filter_invariant_under_inode_set (fd1 fd2 : List FDInfo)
    (tcp : List TcpNetEntry)
    (h : ∀ i : Nat, (socketInodes fd1).contains i = (socketInodes fd2).contains i) :
    build_packet_filter fd1 tcp = build_packet_filter fd2 tcp := by
  unfold build_packet_filter filterClauses
  rw [List.filter_congr (fun e _ => h e.inode)]

/-- Witness for C8: a duplicated, reordered descriptor list with an extra
non-socket descriptor gives the same filter as its deduplicated reversal. -/
theorem c8_filter_invariant_under_inode_set_witness :
    build_packet_filter
      [⟨FDTarget.socket 5⟩, ⟨FDTarget.socket 5⟩, ⟨FDTarget.other 1⟩, ⟨FDTarget.socket 7⟩]
      [entryInode5, entryInode9]
      = build_packet_filter [⟨FDTarget.socket 7⟩, ⟨FDTarget.socket 5⟩]
          [entryInode5, entryInode9] :=
  c8_filter_invariant_under_inode_set _ _ _ (by
    intro i
    by_cases h5 : i = 5 <;> by_cases h7 : i = 7 <;>
      simp [socketInodes, List.contains_cons, h5, h7])

/-- C9: a capture thread that stays alive under a stable filter adds each
packet's wire length to the shared counter exactly once: after processing
packets of lengths `lens` the state is the initial one with the counter
increased by `lens.sum` (filter and liveness unchanged). -/
theorem c9_counter_sums_wire_lengths (s : CaptureState) (lens : List Nat)
    (h : s.alive = true) :
    captureRun s (lens.map (fun l => CapEvent.pkt l none))
      = { s with counter := s.counter + lens.sum } := by
  induction lens generalizing s with
  | nil => simp [captureRun]
  | cons l rest ih =>
    have hstep : captureStep s (CapEvent.pkt l none)
        = { s with counter := s.counter + l } := by
      simp [captureStep, h]
    show captureRun (captureStep s (CapEvent.pkt l none))
        (rest.map (fun l => CapEvent.pkt l none)) = _
    rw [hstep, ih { s with counter := s.counter + l } h]
    simp [List.sum_cons, Nat.add_assoc]

/-- Witness for C9: three packets of lengths 3, 4, 5 from counter 2. -/
theorem c9_counter_sums_wire_lengths_witness :
    captureRun ⟨true, 2, "f"⟩ ([3, 4, 5].map (fun l => CapEvent.pkt l none))
      = { (⟨true, 2, "f"⟩ : CaptureState) with counter := 2 + [3, 4, 5].sum } :=
  c9_counter_sums_wire_lengths ⟨true, 2, "f"⟩ [3, 4, 5] rfl

/-- C10: the process tick delta in `cpu_usage` is an unchecked u64
subtraction: under the unstated precondition that the current tick total is
at least the previous one (and below 2^64) both the wrapping (release) and
checked (debug) semantics agree with the true difference; without it, the
debug semantics is a panic (`none`) and the release semantics wraps to a
huge value (2^64 − 1 for totals 0 and 1) — unlike the system-total path,
whose saturating subtraction yields `period 0 1 1 = 0`. -/
theorem c10_cpu_delta_unchecked_sub (u s pu ps : Nat)
    (hlt : u + s < 2 ^ 64) (hle : pu + ps ≤ u + s) :
    (cpuDeltaWrap (u + s) (pu + ps) = (u + s) - (pu + ps)
      ∧ cpuDeltaChecked (u + s) (pu + ps) = some ((u + s) - (pu + ps)))
    ∧ (cpuDeltaChecked 0 1 = none ∧ cpuDeltaWrap 0 1 = 2 ^ 64 - 1)
    ∧ period 0 1 1 = 0 := by
  refine ⟨⟨?_, ?_⟩, ⟨rfl, by decide⟩, by simp [period]⟩
  · unfold cpuDeltaWrap u64Mod
    omega
  · simp [cpuDeltaChecked, hle]

/-- Witness for C10 at tick totals 3 + 4 and 2 + 1. -/
theorem c10_cpu_delta_unchecked_sub_witness :
    (cpuDeltaWrap (3 + 4) (2 + 1) = (3 + 4) - (2 + 1)
      ∧ cpuDeltaChecked (3 + 4) (2 + 1) = some ((3 + 4) - (2 + 1)))
    ∧ (cpuDeltaChecked 0 1 = none ∧ cpuDeltaWrap 0 1 = 2 ^ 64 - 1)
    ∧ period 0 1 1 = 0 :=
  c10_cpu_delta_unchecked_sub 3 4 2 1 (by norm_num) (by norm_num)

end Usg
